import Mathlib

/-!
Verification development for the a2alloc parallel memory allocator
(src/allocators/a2alloc/a2alloc.c).

The embedding is a byte-addressed heap model.  Addresses are natural
numbers; the heap segment managed by memlib starts at the fixed base
address dsegLo and the machine NULL pointer is 0, which lies strictly
below dsegLo.  All multi-byte accesses are little-endian, matching
x86_64, for which the source hardcodes its constants.  Struct layouts
follow the x86_64 ABI for the source structs:

  struct big_freelist: num_pages at offset 0 (int), next at offset 8.
  struct freelist:     next at offset 0.
  struct pageref:      next at 0, freelist at 8, freelist_base at 16,
                       num_free at 24 (int); records are spaced one
                       cache line (64 bytes) apart.

Writes through the null page (addresses below dsegLo) are modelled as
faults (Except.error), standing for the undefined behaviour a C store
through a null-derived pointer produces.  Locks are not modelled: every
claim under verification concerns the sequential behaviour of a single
operation, and the source takes and releases its locks around exactly
the code transcribed here.
-/

namespace A2

/-- PAGE_SIZE from the source: hardcoded 4 KiB x86_64 pages. -/
def PAGE_SIZE : Nat := 4096

/-- CACHELINE_SIZE from the source. -/
def CACHELINE_SIZE : Nat := 64

/-- NUM_CLASS from the source: number of block class sizes. -/
def NUM_CLASS : Nat := 9

/-- BASE_CLASS from the source: smallest block class, as a power of 2. -/
def BASE_CLASS : Nat := 3

/-- Base machine address of the heap segment (the value of dseg_lo once
memlib is initialized).  It is page aligned and strictly above the null
page, so address 0 is the NULL pointer. -/
def dsegLo : Nat := 4096

/-- Byte-addressed memory: each address holds one byte value. -/
def Heap : Type := Nat → Nat

/-- Pure single-byte store. -/
def w8 (h : Heap) (a v : Nat) : Heap :=
  fun x => if x = a then v % 256 else h x

/-- Pure 4-byte little-endian store of the low 32 bits of v. -/
def w32 (h : Heap) (a v : Nat) : Heap :=
  fun x => if a ≤ x ∧ x < a + 4 then (v >>> ((x - a) * 8)) % 256 else h x

/-- Pure 8-byte little-endian store of the low 64 bits of v. -/
def w64 (h : Heap) (a v : Nat) : Heap :=
  fun x => if a ≤ x ∧ x < a + 8 then (v >>> ((x - a) * 8)) % 256 else h x

/-- Little-endian read of a 32-bit unsigned value. -/
def read32 (h : Heap) (a : Nat) : Nat :=
  h a + h (a + 1) * 256 + h (a + 2) * 65536 + h (a + 3) * 16777216

/-- Little-endian read of a 32-bit int, signed by twos complement. -/
def readI32 (h : Heap) (a : Nat) : Int :=
  let u := read32 h a
  if u < 2 ^ 31 then (u : Int) else (u : Int) - 2 ^ 32

/-- Little-endian read of a 64-bit pointer-sized value. -/
def read64 (h : Heap) (a : Nat) : Nat :=
  h a + h (a + 1) * 2 ^ 8 + h (a + 2) * 2 ^ 16 + h (a + 3) * 2 ^ 24 +
    h (a + 4) * 2 ^ 32 + h (a + 5) * 2 ^ 40 + h (a + 6) * 2 ^ 48 +
    h (a + 7) * 2 ^ 56

/-- Guarded single-byte store: storing through the null page faults. -/
def writeByte (h : Heap) (a v : Nat) : Except String Heap :=
  if a < dsegLo then .error "nullwrite" else .ok (w8 h a v)

/-- Guarded 4-byte store of a C int (twos complement). -/
def writeI32 (h : Heap) (a : Nat) (v : Int) : Except String Heap :=
  if a < dsegLo then .error "nullwrite"
  else .ok (w32 h a (v % (2 ^ 32 : Int)).toNat)

/-- Guarded 8-byte store of a pointer-sized value. -/
def write64 (h : Heap) (a v : Nat) : Except String Heap :=
  if a < dsegLo then .error "nullwrite" else .ok (w64 h a v)

/-- Model of bzero(base, n): zero n bytes starting at base. -/
def bzero (h : Heap) (base n : Nat) : Except String Heap :=
  if base < dsegLo then .error "nullwrite"
  else .ok fun x => if base ≤ x ∧ x < base + n then 0 else h x

/-- Global allocator state: the heap bytes, the sbrk break and capacity
limit of the memlib segment, and the global variables of the source file. -/
structure AllocState where
  heap : Heap
  brk : Nat
  limit : Nat
  substrate_ok : Bool
  initialized : Bool
  big_list : Nat
  new_free_page_refs : Nat
  reusable_page_refs : Nat
  num_processors : Nat
  processor_locks_base : Nat

/-- mem_sbrk(n): returns the old break and advances it, or NULL when the
segment cannot grow.  The sbrk_lock that the source wraps around each
call is irrelevant to the sequential model. -/
def mem_sbrk (s : AllocState) (n : Nat) : Nat × AllocState :=
  if s.brk + n ≤ s.limit then (s.brk, { s with brk := s.brk + n }) else (0, s)

/-- Loop body of get_block_class_index, iterating i upward with k
iterations of budget remaining (NUM_CLASS at the top call). -/
def gbciGo (sz : Nat) : Nat → Nat → Int
  | _, 0 => -1
  | i, k + 1 => if sz ≤ 1 <<< (i + BASE_CLASS) then (i : Int) else gbciGo sz (i + 1) k

/-- get_block_class_index(sz): index of the matching block class, or the
-1 fallback when no class fits. -/
def get_block_class_index (sz : Nat) : Int :=
  gbciGo sz 0 NUM_CLASS

/-- get_page_head(address): start of the 4 KiB page containing the
address, computed relative to dseg_lo as in the source. -/
def get_page_head (address : Nat) : Nat :=
  dsegLo + ((address - dsegLo) / PAGE_SIZE) * PAGE_SIZE

/-- Address of the arena directory slot for (processor, class): the
directory is an array of pointers at dseg_lo. -/
def slotAddr (processor_index block_class_index : Nat) : Nat :=
  dsegLo + processor_index * 8 * NUM_CLASS + block_class_index * 8

/-- pageref_head: load the head pointer of the pageref list of the given
(processor, class) arena from the directory at dseg_lo. -/
def pageref_head (h : Heap) (processor_index block_class_index : Nat) : Nat :=
  read64 h (slotAddr processor_index block_class_index)

/-- set_pageref_head: store a new head pointer into the directory. -/
def set_pageref_head (h : Heap) (processor_index block_class_index a : Nat) :
    Except String Heap :=
  write64 h (slotAddr processor_index block_class_index) a

/-- Freelist walk of big_mm_malloc.  Arguments: fuel, heap, curr, prior,
num_pages, big_list.  Returns the allocated pointer (none when no entry
fits), the updated heap, and the updated big_list head.  A larger entry
is split: its num_pages shrinks and the header of the carved tail gets
only the page count, exactly as in the source.  An exactly sized entry
is unlinked and its own num_pages word serves as the header. -/
def bigWalk : Nat → Heap → Nat → Nat → Nat → Nat →
    Except String (Option Nat × Heap × Nat)
  | 0, _, _, _, _, _ => .error "fuel"
  | fuel + 1, h, curr, prior, num_pages, bl =>
    if curr = 0 then .ok (none, h, bl)
    else if (num_pages : Int) < readI32 h curr then do
      let h ← writeI32 h curr (readI32 h curr - (num_pages : Int))
      let header_ptr := curr + (readI32 h curr).toNat * PAGE_SIZE
      let h ← writeI32 h header_ptr (num_pages : Int)
      .ok (some (header_ptr + 4), h, bl)
    else if readI32 h curr = (num_pages : Int) then
      if prior ≠ 0 then do
        let h ← write64 h (prior + 8) (read64 h (curr + 8))
        .ok (some (curr + 4), h, bl)
      else
        .ok (some (curr + 4), h, read64 h (curr + 8))
    else
      bigWalk fuel h (read64 h (curr + 8)) curr num_pages bl

/-- big_mm_malloc(sz): allocate sz bytes (header already included by the
dispatcher) in whole pages, first from the big freelist, else by sbrk.
Only the fresh-sbrk path writes the -1 sentinel at word 0. -/
def big_mm_malloc (s : AllocState) (sz fuel : Nat) :
    Except String (Nat × AllocState) := do
  let num_pages := (sz + PAGE_SIZE - 1) / PAGE_SIZE
  let wk ← bigWalk fuel s.heap s.big_list 0 num_pages s.big_list
  let s := { s with heap := wk.2.1, big_list := wk.2.2 }
  match wk.1 with
  | some p => .ok (p, s)
  | none =>
    let g := mem_sbrk s (num_pages * PAGE_SIZE)
    if g.1 ≠ 0 then do
      let h ← writeI32 g.2.heap g.1 (-1)
      let h ← writeI32 h (g.1 + 4) (num_pages : Int)
      .ok (g.1 + 8, { g.2 with heap := h })
    else
      .ok (0, g.2)

/-- big_mm_free(ptr): reinterpret the header word before ptr as a
big_freelist entry and push it onto the head of the big freelist. -/
def big_mm_free (s : AllocState) (ptr : Nat) : Except String AllocState := do
  let header_ptr := ptr - 4
  let h ← write64 s.heap (header_ptr + 8) s.big_list
  .ok { s with heap := h, big_list := header_ptr }

/-- Carving loop of allocate_pageref: split a fresh metadata page into
cache-line-sized pageref records, pushing all but the first onto the
new_free_page_refs list.  Arguments: fuel, heap, page base, i, list. -/
def carveLoop : Nat → Heap → Nat → Nat → Nat → Except String (Heap × Nat)
  | 0, _, _, _, _ => .error "fuel"
  | k + 1, h, base, i, nf =>
    if i < PAGE_SIZE then do
      let h ← write64 h (base + i) nf
      carveLoop k h base (i + CACHELINE_SIZE) (base + i)
    else .ok (h, nf)

/-- Freelist building loop of allocate_pageref: chain every class-sized
slot of the data page onto the pageref freelist, bumping num_free.
Arguments: fuel, heap, freelist_base_address, block size, pageref, i. -/
def buildLoop : Nat → Heap → Nat → Nat → Nat → Nat → Except String Heap
  | 0, h, _, _, _, i => if i < PAGE_SIZE then .error "fuel" else .ok h
  | k + 1, h, base, bs, r, i =>
    if i < PAGE_SIZE then do
      let h ← write64 h (base + i) (read64 h (r + 8))
      let h ← write64 h (r + 8) (base + i)
      let h ← writeI32 h (r + 24) (readI32 h (r + 24) + 1)
      buildLoop k h base bs r (i + bs)
    else .ok h

/-- allocate_pageref(processor, class): obtain a pageref (reusable list,
fresh list, or a freshly carved metadata page), splice it onto the head
of the arena list, bind a data page when needed, rebuild its freelist
and write the (processor, class) metadata bytes at the page base.  The
source checks no mem_sbrk result here; a NULL return flows into the
subsequent stores, which the model surfaces as a fault. -/
def writeMeta (h : Heap) (base proc cls : Nat) : Except String Heap := do
  let h ← writeByte h base proc
  writeByte h (base + 4) cls

def allocate_pageref (s : AllocState) (processor_index block_class_index : Nat) :
    Except String (Nat × AllocState) := do
  let acq ←
    if s.reusable_page_refs ≠ 0 then
      Except.ok (s.reusable_page_refs, false,
        { s with reusable_page_refs := read64 s.heap s.reusable_page_refs })
    else if s.new_free_page_refs = 0 then do
      let g := mem_sbrk s PAGE_SIZE
      let cv ← carveLoop 64 g.2.heap g.1 CACHELINE_SIZE g.2.new_free_page_refs
      Except.ok (g.1, true, { g.2 with heap := cv.1, new_free_page_refs := cv.2 })
    else
      Except.ok (s.new_free_page_refs, true,
        { s with new_free_page_refs := read64 s.heap s.new_free_page_refs })
  let page_ref := acq.1
  let create_freelist := acq.2.1
  let s := acq.2.2
  let h ← write64 s.heap page_ref (pageref_head s.heap processor_index block_class_index)
  let h ← set_pageref_head h processor_index block_class_index page_ref
  let flb0 := read64 h (page_ref + 16)
  let s := { s with heap := h }
  let bound ←
    if create_freelist then do
      let g := mem_sbrk s PAGE_SIZE
      let h ← write64 g.2.heap (page_ref + 16) g.1
      Except.ok (g.1, { g.2 with heap := h })
    else Except.ok (flb0, s)
  let freelist_base_address := bound.1
  let s := bound.2
  let h ← write64 s.heap (page_ref + 8) 0
  let h ← writeI32 h (page_ref + 24) 0
  let h ← buildLoop 513 h freelist_base_address
    (1 <<< (block_class_index + BASE_CLASS)) page_ref 0
  let h ← writeMeta h freelist_base_address processor_index block_class_index
  .ok (page_ref, { s with heap := h })

/-- Pageref walk of subpage_mm_malloc: find the first pageref with a
free block, handling the page-base block whose usable space is 8 bytes
short; the swap branch exchanges the base-coincident head with its
successor in place.  Arguments: fuel, heap, pageref, block size, sz. -/
def mallocWalk : Nat → Heap → Nat → Nat → Nat →
    Except String (Option Nat × Heap)
  | 0, _, _, _, _ => .error "fuel"
  | k + 1, h, r, bs, sz =>
    if r = 0 then .ok (none, h)
    else if 0 < readI32 h (r + 24) then
      if read64 h (r + 8) = read64 h (r + 16) then
        if sz ≤ bs - 8 then .ok (some r, h)
        else if 1 < readI32 h (r + 24) then do
          let fl := read64 h (r + 8)
          let old_freelist_next := read64 h fl
          let h ← write64 h fl (read64 h old_freelist_next)
          let h ← write64 h old_freelist_next fl
          let h ← write64 h (r + 8) old_freelist_next
          .ok (some r, h)
        else mallocWalk k h (read64 h r) bs sz
      else .ok (some r, h)
    else mallocWalk k h (read64 h r) bs sz

/-- Pop step of subpage_mm_malloc (its final lines): take the freelist
head, decrement num_free, advance the freelist, and when the popped
block coincides with the page base return page base plus two words. -/
def popBlock (h : Heap) (r : Nat) : Except String (Heap × Nat) := do
  let memory := read64 h (r + 8)
  let h ← writeI32 h (r + 24) (readI32 h (r + 24) - 1)
  let h ← write64 h (r + 8) (read64 h memory)
  if memory = read64 h (r + 16) then .ok (h, memory + 8) else .ok (h, memory)

/-- subpage_mm_malloc(sz): per-processor size-classed allocation. The
current cpu id is an explicit argument standing for sched_getcpu. -/
def subpage_mm_malloc (s : AllocState) (sz cpu fuel : Nat) :
    Except String (Nat × AllocState) := do
  let processor_index := cpu % s.num_processors
  let block_class_index := (get_block_class_index sz).toNat
  let bs := 1 <<< (block_class_index + BASE_CLASS)
  let w ← mallocWalk fuel s.heap
    (pageref_head s.heap processor_index block_class_index) bs sz
  let s := { s with heap := w.2 }
  let got ←
    match w.1 with
    | some r => Except.ok (r, s)
    | none => allocate_pageref s processor_index block_class_index
  let pb ← popBlock got.2.heap got.1
  .ok (pb.2, { got.2 with heap := pb.1 })

/-- Pageref search of subpage_mm_free: walk the (processor, class) list
for the pageref bound to the page, tracking the prior node.  Returns
the pageref (0 when the walk ran off the list, exactly as the NULL the
source then dereferences) and the prior node (0 for none). -/
def freeWalk : Nat → Heap → Nat → Nat → Nat → Except String (Nat × Nat)
  | 0, _, _, _, _ => .error "fuel"
  | k + 1, h, r, prior, page_head =>
    if r = 0 then .ok (0, prior)
    else if read64 h (r + 16) = page_head then .ok (r, prior)
    else freeWalk k h (read64 h r) r page_head

/-- Push step of subpage_mm_free: link the freed pointer onto the head
of the pageref freelist and increment num_free. -/
def pushBlock (h : Heap) (r ptr : Nat) : Except String Heap := do
  let tmp := read64 h (r + 8)
  let h ← write64 h (r + 8) ptr
  let h ← write64 h ptr tmp
  writeI32 h (r + 24) (readI32 h (r + 24) + 1)

/-- subpage_mm_free(ptr): returns 0 when the page metadata carries the
-1 sentinel (caller redirects to the big free path), else pushes the
block and recycles the page when it becomes fully empty. -/
def subpage_mm_free (s : AllocState) (ptr fuel : Nat) :
    Except String (Int × AllocState) := do
  let page_head := get_page_head ptr
  let processor_index := readI32 s.heap page_head
  if processor_index = -1 then .ok (0, s)
  else do
    let p := processor_index.toNat
    let c := (readI32 s.heap (page_head + 4)).toNat
    let fw ← freeWalk fuel s.heap (pageref_head s.heap p c) 0 page_head
    let page_ref := fw.1
    let prior := fw.2
    let h ← pushBlock s.heap page_ref ptr
    let bs := 1 <<< (c + BASE_CLASS)
    if readI32 h (page_ref + 24) = ((PAGE_SIZE / bs : Nat) : Int) then do
      let h ←
        if prior ≠ 0 then write64 h prior (read64 h page_ref)
        else set_pageref_head h p c (read64 h page_ref)
      let h ← bzero h (read64 h (page_ref + 16)) PAGE_SIZE
      let h ← write64 h page_ref s.reusable_page_refs
      .ok (1, { s with heap := h, reusable_page_refs := page_ref })
    else
      .ok (1, { s with heap := h })

/-- mm_malloc(sz): dispatch to the subpage allocator for requests up to
half a page, else to the big allocator with two header words added. -/
def mm_malloc (s : AllocState) (sz cpu fuel : Nat) :
    Except String (Nat × AllocState) :=
  if sz ≤ PAGE_SIZE / 2 then subpage_mm_malloc s sz cpu fuel
  else big_mm_malloc s (sz + 2 * 4) fuel

/-- mm_free(ptr): NULL is a no-op; otherwise try the subpage path and
fall back to the big path when it reports the -1 sentinel. -/
def mm_free (s : AllocState) (ptr fuel : Nat) : Except String AllocState :=
  if ptr = 0 then .ok s
  else do
    let r ← subpage_mm_free s ptr fuel
    if r.1 = 0 then big_mm_free r.2 ptr else .ok r.2

/-- mem_init: the substrate initialization, setting up the segment with
its break at dseg_lo. -/
def mem_init (s : AllocState) : AllocState :=
  { s with initialized := true, brk := dsegLo }

/-- mm_init(): initialize the substrate if dseg_lo is still NULL, then
sbrk and zero a region for the arena directory and the per-processor
lock array.  The processor count stands for getNumProcessors.  The
pthread_mutex_init loop writes into the zeroed lock region and is not
modelled further.  Note the source runs the sbrk on every call. -/
def mm_init (s : AllocState) (np : Nat) : Except String (Int × AllocState) :=
  if ¬s.initialized ∧ ¬s.substrate_ok then .ok (-1, s)
  else do
    let s := if s.initialized then s else mem_init s
    let s := { s with num_processors := np }
    let freelist_space := NUM_CLASS * 8 * np
    let mutex_space := CACHELINE_SIZE * np
    let page_needed := (freelist_space + mutex_space + PAGE_SIZE - 1) / PAGE_SIZE
    let g := mem_sbrk s (page_needed * PAGE_SIZE)
    let h ← bzero g.2.heap g.1 (page_needed * PAGE_SIZE)
    .ok (0, { g.2 with heap := h, processor_locks_base := g.1 + freelist_space })

/-- Fresh substrate state with the given capacity in bytes. -/
def initState (cap : Nat) : AllocState :=
  { heap := fun _ => 0, brk := 0, limit := dsegLo + cap, substrate_ok := true,
    initialized := false, big_list := 0, new_free_page_refs := 0,
    reusable_page_refs := 0, num_processors := 1, processor_locks_base := 0 }

/-- Modelled from the spec: the open question of the spec mandates
word-sized metadata fields, written and read as whole machine words to
match the read path that loads 32-bit ints at offsets 0 and word.
This is the write the claim about whole-word metadata describes; the
source (writeMeta) instead stores single bytes. -/
def writeMetaSpec (h : Heap) (base : Nat) (proc cls : Int) : Except String Heap := do
  let h ← writeI32 h base proc
  writeI32 h (base + 4) cls

/-- List of nodes visited by following the freelist next pointers k
times from p, reading each next pointer from the heap. -/
def chaseN (h : Heap) : Nat → Nat → List Nat
  | _, 0 => []
  | p, k + 1 => p :: chaseN h (read64 h p) k

/-- Node reached after following next pointers k times from p. -/
def follow (h : Heap) : Nat → Nat → Nat
  | p, 0 => p
  | p, k + 1 => follow h (read64 h p) k

/-- Nodes reachable from p by following next pointers until NULL, with
fuel; none when the chain does not reach NULL within the fuel. -/
def chaseToNull (h : Heap) : Nat → Nat → Option (List Nat)
  | _, 0 => none
  | p, k + 1 =>
    if p = 0 then some []
    else
      match chaseToNull h (read64 h p) k with
      | some l => some (p :: l)
      | none => none

/-- Block start addresses the freelist building loop visits from offset
i on, in visiting order, with the same fuel discipline as buildLoop. -/
def blocksFrom (b bs : Nat) : Nat → Nat → List Nat
  | _, 0 => []
  | i, k + 1 => if i < PAGE_SIZE then (b + i) :: blocksFrom b bs (i + bs) k else []

/-- Scenario: mm_init on a fresh 64 KiB substrate with one processor. -/
def sc1 : Except String AllocState := do
  let r ← mm_init (initState 65536) 1
  .ok r.2

/-- Scenario: a 5000-byte request, served by the fresh-sbrk big path as
a two-page span. -/
def sc2 : Except String (Nat × AllocState) := do
  let s ← sc1
  mm_malloc s 5000 0 100

/-- Scenario: free the two-page span; it becomes the single big
freelist entry. -/
def sc3 : Except String AllocState := do
  let x ← sc2
  mm_free x.2 x.1 100

/-- Scenario: a 3000-byte request served by splitting the freed
two-page entry; the carved-off tail is returned. -/
def sc4 : Except String (Nat × AllocState) := do
  let s ← sc3
  mm_malloc s 3000 0 100

/-- Scenario: free the split-path pointer.  The page head word is not
the -1 sentinel, so the subpage path runs and dereferences the NULL
pageref its list walk produced. -/
def sc5 : Except String AllocState := do
  let x ← sc4
  mm_free x.2 x.1 100

/-- Scenario: first 2048-byte allocation on a fresh arena. -/
def t1 : Except String (Nat × AllocState) := do
  let s ← sc1
  mm_malloc s 2048 0 100

/-- Scenario: second 2048-byte allocation. -/
def t2 : Except String (Nat × AllocState) := do
  let x ← t1
  mm_malloc x.2 2048 0 100

/-- Scenario: free the single outstanding 2048-byte block; the page
becomes fully empty and is recycled. -/
def t3 : Except String AllocState := do
  let x ← t1
  mm_free x.2 x.1 100

/-- Scenario: allocate 2048 bytes again after the recycle; the page-ref
and its bound page are reused from the pool without sbrk. -/
def t4 : Except String (Nat × AllocState) := do
  let s ← t3
  mm_malloc s 2048 0 100

/-- Scenario: allocate_pageref directly on the initialized state, as
subpage_mm_malloc does on a miss for (processor 0, class 8). -/
def ap1 : Except String (Nat × AllocState) := do
  let s ← sc1
  allocate_pageref s 0 8

/-- Scenario: initialized state whose substrate is already exhausted
(the directory page consumed the whole capacity). -/
def ex0 : Except String AllocState := do
  let r ← mm_init (initState 4096) 1
  .ok r.2

/-- Scenario: subpage allocation on the exhausted substrate. -/
def exSub : Except String (Nat × AllocState) := do
  let s ← ex0
  mm_malloc s 100 0 100

/-- Scenario: big allocation on the exhausted substrate. -/
def exBig : Except String (Nat × AllocState) := do
  let s ← ex0
  mm_malloc s 5000 0 100

/-- Scenario: a second mm_init call on the already initialized state. -/
def in2 : Except String (Int × AllocState) := do
  let s ← sc1
  mm_init s 1

/-- Heap for the C3 counterexample: one stray nonzero byte at offset 1
of the page that will receive the metadata write. -/
def gBad : Heap := w8 (fun _ => 0) 4097 7

/-- Concrete heap for the C7 witness: the arena head slot for
(processor 0, class 8) points at a pageref at 8192 whose bound page is
12288, whose freelist head is the page base, and whose num_free is one
below full (cap is 2 blocks of 2048 bytes). -/
def c7heap : Heap :=
  w32 (w64 (w64 (w64 (fun _ => 0) 4160 8192) 8208 12288) 8200 12288) 8216 1

/-- Metadata bytes of the C7 witness page: processor 0, class 8. -/
def c7heapM : Heap := w32 c7heap 12292 8

/-- Allocator state for the C7 witness. -/
def c7state : AllocState :=
  { heap := c7heapM, brk := 16384, limit := 65536, substrate_ok := true,
    initialized := true, big_list := 0, new_free_page_refs := 0,
    reusable_page_refs := 0, num_processors := 1, processor_locks_base := 4168 }

/-- Concrete heap for the pop conjunct of the C4 witness: a pageref at
8192 with a two-node freelist 14336 then 12288, num_free 2. -/
def c4PopHeap : Heap :=
  w64 (w64 (w32 (fun _ => 0) 8216 2) 8200 14336) 14336 12288

/-- Concrete heap for the push conjunct of the C4 witness: a pageref at
8192 with the one-node freelist 14336, num_free 1. -/
def c4PushHeap : Heap := w64 (w32 (fun _ => 0) 8216 1) 8200 14336

/-- Scenario: mm_init when the substrate itself fails to initialize. -/
def in3 : Except String (Int × AllocState) :=
  mm_init { initState 65536 with substrate_ok := false } 1

/-! Basic read and write lemmas for the byte heap. -/


lemma ok_bind {α β : Type} (a : α) (f : α → Except String β) :
    (Except.ok a : Except String α) >>= f = f a := rfl

lemma writeByte_ok (h : Heap) (a v : Nat) (ha : dsegLo ≤ a) :
    writeByte h a v = .ok (w8 h a v) := by
  simp [writeByte, Nat.not_lt.mpr ha]

lemma writeI32_ok (h : Heap) (a : Nat) (v : Int) (ha : dsegLo ≤ a) :
    writeI32 h a v = .ok (w32 h a (v % (2 ^ 32 : Int)).toNat) := by
  simp [writeI32, Nat.not_lt.mpr ha]

lemma write64_ok (h : Heap) (a v : Nat) (ha : dsegLo ≤ a) :
    write64 h a v = .ok (w64 h a v) := by
  simp [write64, Nat.not_lt.mpr ha]

lemma bzero_ok (h : Heap) (base n : Nat) (hb : dsegLo ≤ base) :
    bzero h base n = .ok fun x => if base ≤ x ∧ x < base + n then 0 else h x := by
  simp [bzero, Nat.not_lt.mpr hb]

lemma w8_same (h : Heap) (a v : Nat) : w8 h a v a = v % 256 := by simp [w8]

lemma w8_other (h : Heap) (a v x : Nat) (hx : x ≠ a) : w8 h a v x = h x := by
  simp [w8, hx]

lemma w32_other (h : Heap) (a v x : Nat) (hx : x < a ∨ a + 4 ≤ x) :
    w32 h a v x = h x := by
  simp only [w32]
  rw [if_neg (by omega)]

lemma w64_other (h : Heap) (a v x : Nat) (hx : x < a ∨ a + 8 ≤ x) :
    w64 h a v x = h x := by
  simp only [w64]
  rw [if_neg (by omega)]

lemma read64_congr {h1 h2 : Heap} (x : Nat)
    (he : ∀ k, k < 8 → h1 (x + k) = h2 (x + k)) : read64 h1 x = read64 h2 x := by
  have e0 := he 0 (by omega)
  have e1 := he 1 (by omega)
  have e2 := he 2 (by omega)
  have e3 := he 3 (by omega)
  have e4 := he 4 (by omega)
  have e5 := he 5 (by omega)
  have e6 := he 6 (by omega)
  have e7 := he 7 (by omega)
  simp only [Nat.add_zero] at e0
  simp only [read64, e0, e1, e2, e3, e4, e5, e6, e7]

lemma read32_congr {h1 h2 : Heap} (x : Nat)
    (he : ∀ k, k < 4 → h1 (x + k) = h2 (x + k)) : read32 h1 x = read32 h2 x := by
  have e0 := he 0 (by omega)
  have e1 := he 1 (by omega)
  have e2 := he 2 (by omega)
  have e3 := he 3 (by omega)
  simp only [Nat.add_zero] at e0
  simp only [read32, e0, e1, e2, e3]

lemma readI32_congr {h1 h2 : Heap} (x : Nat)
    (he : ∀ k, k < 4 → h1 (x + k) = h2 (x + k)) : readI32 h1 x = readI32 h2 x := by
  simp only [readI32, read32_congr x he]

lemma read64_w64_of_eq (h : Heap) (a v : Nat) (hv : v < 2 ^ 64) :
    read64 (w64 h a v) a = v := by
  simp only [read64, w64, Nat.shiftRight_eq_div_pow]
  repeat rw [if_pos (by omega)]
  simp only [Nat.sub_self, Nat.add_sub_cancel_left]
  norm_num
  omega

lemma read64_w64_of_ne (h : Heap) (a v x : Nat) (hx : x + 8 ≤ a ∨ a + 8 ≤ x) :
    read64 (w64 h a v) x = read64 h x :=
  read64_congr x fun k hk => w64_other h a v (x + k) (by omega)

lemma read64_w32_of_ne (h : Heap) (a : Nat) (v : Nat) (x : Nat)
    (hx : x + 8 ≤ a ∨ a + 4 ≤ x) : read64 (w32 h a v) x = read64 h x :=
  read64_congr x fun k hk => w32_other h a v (x + k) (by omega)

lemma read64_w8_of_ne (h : Heap) (a v x : Nat) (hx : a < x ∨ x + 8 ≤ a) :
    read64 (w8 h a v) x = read64 h x :=
  read64_congr x fun k hk => w8_other h a v (x + k) (by omega)

lemma read32_w32_of_eq (h : Heap) (a n : Nat) (hn : n < 2 ^ 32) :
    read32 (w32 h a n) a = n := by
  simp only [read32, w32, Nat.shiftRight_eq_div_pow]
  repeat rw [if_pos (by omega)]
  simp only [Nat.sub_self, Nat.add_sub_cancel_left]
  norm_num
  omega

lemma readI32_w32_of_ne (h : Heap) (a : Nat) (v : Nat) (x : Nat)
    (hx : x + 4 ≤ a ∨ a + 4 ≤ x) : readI32 (w32 h a v) x = readI32 h x :=
  readI32_congr x fun k hk => w32_other h a v (x + k) (by omega)

lemma readI32_w64_of_ne (h : Heap) (a : Nat) (v : Nat) (x : Nat)
    (hx : x + 4 ≤ a ∨ a + 8 ≤ x) : readI32 (w64 h a v) x = readI32 h x :=
  readI32_congr x fun k hk => w64_other h a v (x + k) (by omega)

lemma readI32_w32I (h : Heap) (a : Nat) (v : Int) (h1 : -(2 ^ 31) ≤ v)
    (h2 : v < 2 ^ 31) :
    readI32 (w32 h a (v % (2 ^ 32 : Int)).toNat) a = v := by
  have hn : (v % (2 ^ 32 : Int)).toNat < 2 ^ 32 := by omega
  simp only [readI32, read32_w32_of_eq h a _ hn]
  omega

def byteBounded (h : Heap) : Prop := ∀ x, h x < 256

lemma byteBounded_w8 {h : Heap} (hb : byteBounded h) (a v : Nat) :
    byteBounded (w8 h a v) := by
  intro x
  simp only [w8]
  split <;> [omega; exact hb x]

lemma byteBounded_w32 {h : Heap} (hb : byteBounded h) (a v : Nat) :
    byteBounded (w32 h a v) := by
  intro x
  simp only [w32]
  split <;> [omega; exact hb x]

lemma byteBounded_w64 {h : Heap} (hb : byteBounded h) (a v : Nat) :
    byteBounded (w64 h a v) := by
  intro x
  simp only [w64]
  split <;> [omega; exact hb x]

lemma read64_lt {h : Heap} (hb : byteBounded h) (a : Nat) :
    read64 h a < 2 ^ 64 := by
  have b0 := hb a
  have b1 := hb (a + 1)
  have b2 := hb (a + 2)
  have b3 := hb (a + 3)
  have b4 := hb (a + 4)
  have b5 := hb (a + 5)
  have b6 := hb (a + 6)
  have b7 := hb (a + 7)
  simp only [read64]
  omega

lemma readI32_bounds {h : Heap} (hb : byteBounded h) (a : Nat) :
    -(2 ^ 31) ≤ readI32 h a ∧ readI32 h a < 2 ^ 31 := by
  have b0 := hb a
  have b1 := hb (a + 1)
  have b2 := hb (a + 2)
  have b3 := hb (a + 3)
  simp only [readI32, read32]
  split <;> omega

lemma bb_zero : byteBounded (fun _ => 0) := by
  intro x
  norm_num



lemma slotAddr_ge (p c : Nat) : dsegLo ≤ slotAddr p c := by
  unfold slotAddr
  omega

lemma get_page_head_spec (ptr : Nat) (h : dsegLo ≤ ptr) :
    get_page_head ptr ≤ ptr ∧ ptr < get_page_head ptr + PAGE_SIZE ∧
      dsegLo ≤ get_page_head ptr := by
  unfold get_page_head PAGE_SIZE dsegLo at *
  omega

lemma block_size_ge (c : Nat) : 8 ≤ 1 <<< (c + BASE_CLASS) := by
  rw [Nat.shiftLeft_eq, Nat.one_mul]
  calc (8 : Nat) = 2 ^ 3 := by norm_num
  _ ≤ 2 ^ (c + BASE_CLASS) := Nat.pow_le_pow_right (by norm_num) (by unfold BASE_CLASS; omega)



lemma except_bind_assoc {α β γ : Type} (e : Except String α)
    (f : α → Except String β) (g : β → Except String γ) :
    e >>= f >>= g = e >>= fun x => f x >>= g := by
  cases e <;> rfl


/-! Freelist chain lemmas and the freelist building loop. -/


lemma chaseN_succ (h : Heap) : ∀ (n p : Nat),
    chaseN h p (n + 1) = chaseN h p n ++ [follow h p n]
  | 0, p => by simp [chaseN, follow]
  | n + 1, p => by
    show p :: chaseN h (read64 h p) (n + 1) =
      (p :: chaseN h (read64 h p) n) ++ [follow h p (n + 1)]
    rw [chaseN_succ h n (read64 h p)]
    simp [follow]

lemma follow_succ (h : Heap) : ∀ (n p : Nat),
    follow h p (n + 1) = read64 h (follow h p n)
  | 0, p => rfl
  | n + 1, p => by
    show follow h (read64 h p) (n + 1) = read64 h (follow h p (n + 1))
    rw [follow_succ h n (read64 h p)]
    rfl

lemma chaseN_congr2 {h1 h2 : Heap} : ∀ (k p : Nat),
    (∀ x ∈ chaseN h1 p k, read64 h2 x = read64 h1 x) →
      chaseN h2 p k = chaseN h1 p k
  | 0, _, _ => rfl
  | k + 1, p, he => by
    have hp : read64 h2 p = read64 h1 p := he p (by simp [chaseN])
    show p :: chaseN h2 (read64 h2 p) k = p :: chaseN h1 (read64 h1 p) k
    rw [hp]
    exact congrArg _ (chaseN_congr2 k (read64 h1 p)
      fun x hx => he x (by simp [chaseN, hx]))

lemma follow_congr {h1 h2 : Heap} : ∀ (k p : Nat),
    (∀ x ∈ chaseN h1 p k, read64 h2 x = read64 h1 x) →
      follow h2 p k = follow h1 p k
  | 0, _, _ => rfl
  | k + 1, p, he => by
    have hp : read64 h2 p = read64 h1 p := he p (by simp [chaseN])
    show follow h2 (read64 h2 p) k = follow h1 (read64 h1 p) k
    rw [hp]
    exact follow_congr k (read64 h1 p) fun x hx => he x (by simp [chaseN, hx])

lemma blocksFrom_mem (b bs : Nat) : ∀ (k i q : Nat),
    q ∈ blocksFrom b bs i k → b + i ≤ q ∧ q < b + PAGE_SIZE
  | 0, _, _, hq => by simp [blocksFrom] at hq
  | k + 1, i, q, hq => by
    simp only [blocksFrom] at hq
    by_cases hi : i < PAGE_SIZE
    · rw [if_pos hi] at hq
      rcases List.mem_cons.mp hq with h1 | h2
      · omega
      · have := blocksFrom_mem b bs k (i + bs) q h2
        omega
    · rw [if_neg hi] at hq
      simp at hq

lemma blocksFrom_nodup (b bs : Nat) (hbs : 1 ≤ bs) : ∀ (k i : Nat),
    (blocksFrom b bs i k).Nodup
  | 0, _ => by simp [blocksFrom]
  | k + 1, i => by
    simp only [blocksFrom]
    by_cases hi : i < PAGE_SIZE
    · rw [if_pos hi]
      refine List.nodup_cons.mpr ⟨fun hmem => ?_, blocksFrom_nodup b bs hbs k (i + bs)⟩
      have := blocksFrom_mem b bs k (i + bs) (b + i) hmem
      omega
    · rw [if_neg hi]
      simp

lemma buildLoop_spec (b bs r : Nat) (hbs : 8 ≤ bs) (hb : dsegLo ≤ b) (hr : dsegLo ≤ r)
    (hb64 : b + PAGE_SIZE < 2 ^ 64)
    (hdisj : b + PAGE_SIZE + 8 ≤ r ∨ r + 32 ≤ b) :
    ∀ k i h, PAGE_SIZE ≤ i + k * bs → byteBounded h →
      readI32 h (r + 24) + k < 2 ^ 31 →
      ∃ h2, buildLoop k h b bs r i = .ok h2 ∧ byteBounded h2 ∧
        readI32 h2 (r + 24) = readI32 h (r + 24) + (blocksFrom b bs i k).length ∧
        chaseN h2 (read64 h2 (r + 8)) (blocksFrom b bs i k).length
          = (blocksFrom b bs i k).reverse ∧
        follow h2 (read64 h2 (r + 8)) (blocksFrom b bs i k).length = read64 h (r + 8) ∧
        (i < PAGE_SIZE → read64 h2 (b + i) = read64 h (r + 8)) ∧
        (∀ x, (x < b + i ∨ b + PAGE_SIZE + 8 ≤ x) → (x < r + 8 ∨ r + 16 ≤ x) →
          (x < r + 24 ∨ r + 28 ≤ x) → h2 x = h x) := by
  have hdseg : dsegLo = 4096 := rfl
  have hpg : PAGE_SIZE = 4096 := rfl
  intro k
  induction k with
  | zero =>
    intro i h hfuel hbb hcnt
    refine ⟨h, ?_, hbb, by simp [blocksFrom], by simp [blocksFrom, chaseN],
      by simp [blocksFrom, follow], fun hlt => absurd hlt (by omega),
      fun x _ _ _ => rfl⟩
    simp only [buildLoop]
    rw [if_neg (by omega)]
  | succ k ih =>
    intro i h hfuel hbb hcnt
    by_cases hi : i < PAGE_SIZE
    · -- one iteration, then the induction hypothesis
      have hobb := readI32_bounds hbb (r + 24)
      set hA := w64 h (b + i) (read64 h (r + 8)) with hAdef
      set hB := w64 hA (r + 8) (b + i) with hBdef
      have f1 : readI32 hB (r + 24) = readI32 h (r + 24) := by
        rw [hBdef, readI32_w64_of_ne _ _ _ _ (by omega),
          hAdef, readI32_w64_of_ne _ _ _ _ (by omega)]
      set hC := w32 hB (r + 24) (((readI32 hB (r + 24) + 1) % (2 ^ 32 : Int)).toNat)
        with hCdef
      have f2a : byteBounded hA := byteBounded_w64 hbb _ _
      have f2b : byteBounded hB := byteBounded_w64 f2a _ _
      have f2c : byteBounded hC := byteBounded_w32 f2b _ _
      have f3 : readI32 hC (r + 24) = readI32 h (r + 24) + 1 := by
        rw [hCdef, f1, readI32_w32I _ _ _ (by omega) (by omega)]
      have f4 : read64 hC (r + 8) = b + i := by
        rw [hCdef, read64_w32_of_ne _ _ _ _ (by omega), hBdef,
          read64_w64_of_eq _ _ _ (by omega)]
      have hfl64 : read64 h (r + 8) < 2 ^ 64 := read64_lt hbb _
      have f5 : read64 hC (b + i) = read64 h (r + 8) := by
        rw [hCdef, read64_w32_of_ne _ _ _ _ (by omega), hBdef,
          read64_w64_of_ne _ _ _ _ (by omega), hAdef,
          read64_w64_of_eq _ _ _ hfl64]
      have hmul : (k + 1) * bs = bs + k * bs := by ring
      obtain ⟨h2, e_run, e_bb, e_cnt, e_chain, e_follow, _, e_frame⟩ :=
        ih (i + bs) hC (by omega) f2c (by omega)
      have hfb : read64 h2 (b + i) = read64 h (r + 8) := by
        have : read64 h2 (b + i) = read64 hC (b + i) :=
          read64_congr (b + i) fun j hj => e_frame (b + i + j)
            (by omega) (by omega) (by omega)
        rw [this, f5]
      have hLdef : blocksFrom b bs i (k + 1)
          = (b + i) :: blocksFrom b bs (i + bs) k := by
        simp only [blocksFrom]
        rw [if_pos hi]
      refine ⟨h2, ?_, e_bb, ?_, ?_, ?_, fun _ => hfb, ?_⟩
      · simp only [buildLoop]
        rw [if_pos hi]
        rw [write64_ok h (b + i) (read64 h (r + 8)) (by omega)]
        simp only [ok_bind]
        rw [write64_ok hA (r + 8) (b + i) (by omega)]
        simp only [ok_bind]
        rw [writeI32_ok hB (r + 24) (readI32 hB (r + 24) + 1) (by omega)]
        simp only [ok_bind]
        exact e_run
      · rw [hLdef]
        simp only [List.length_cons]
        omega
      · rw [hLdef]
        simp only [List.length_cons, List.reverse_cons]
        rw [chaseN_succ, e_chain, e_follow, f4]
      · rw [hLdef]
        simp only [List.length_cons]
        rw [follow_succ, e_follow, f4, hfb]
      · intro x hx1 hx2 hx3
        rw [e_frame x (by omega) hx2 hx3, hCdef]
        rw [w32_other _ _ _ _ (by omega), hBdef, w64_other _ _ _ _ (by omega),
          hAdef, w64_other _ _ _ _ (by omega)]
    · -- loop bound reached: no iteration
      have hL : blocksFrom b bs i (k + 1) = [] := by
        simp only [blocksFrom]
        rw [if_neg hi]
      refine ⟨h, ?_, hbb, by rw [hL]; simp, by rw [hL]; simp [chaseN],
        by rw [hL]; simp [follow], fun hlt => absurd hlt hi,
        fun x _ _ _ => rfl⟩
      simp only [buildLoop]
      rw [if_neg hi]


lemma chaseN_length (h : Heap) : ∀ (k p : Nat), (chaseN h p k).length = k
  | 0, _ => rfl
  | k + 1, p => by
    show (p :: chaseN h (read64 h p) k).length = k + 1
    simp [chaseN_length h k]

lemma read64_zero_bytes {h : Heap} {a : Nat} (hz : read64 h a = 0) :
    h a = 0 ∧ h (a + 1) = 0 ∧ h (a + 2) = 0 ∧ h (a + 3) = 0 ∧
    h (a + 4) = 0 ∧ h (a + 5) = 0 ∧ h (a + 6) = 0 ∧ h (a + 7) = 0 := by
  simp only [read64] at hz
  omega

lemma rebuild_spec (h : Heap) (b r proc cls bs : Nat)
    (hbs : 8 ≤ bs) (hb : dsegLo ≤ b) (hr : dsegLo ≤ r)
    (hb64 : b + PAGE_SIZE < 2 ^ 64)
    (hdisj : b + PAGE_SIZE + 8 ≤ r ∨ r + 32 ≤ b)
    (hbb : byteBounded h) (hproc : proc < 256) (hcls : cls < 256) :
    ∃ h5, (do
        let g1 ← write64 h (r + 8) 0
        let g2 ← writeI32 g1 (r + 24) 0
        let g3 ← buildLoop 513 g2 b bs r 0
        writeMeta g3 b proc cls) = Except.ok h5 ∧
      byteBounded h5 ∧
      readI32 h5 (r + 24) = ((blocksFrom b bs 0 513).length : Int) ∧
      readI32 h5 b = (proc : Int) ∧
      readI32 h5 (b + 4) = (cls : Int) ∧
      chaseN h5 (read64 h5 (r + 8)) (blocksFrom b bs 0 513).length
        = (blocksFrom b bs 0 513).reverse ∧
      (∀ x, (x < b ∨ b + PAGE_SIZE + 8 ≤ x) → (x < r + 8 ∨ r + 16 ≤ x) →
        (x < r + 24 ∨ r + 28 ≤ x) → h5 x = h x) := by
  have hpg : PAGE_SIZE = 4096 := rfl
  have hds : dsegLo = 4096 := rfl
  set h1 := w64 h (r + 8) 0 with h1def
  have hbb1 : byteBounded h1 := byteBounded_w64 hbb _ _
  set h2 := w32 h1 (r + 24) ((0 % (2 ^ 32 : Int))).toNat with h2def
  have hbb2 : byteBounded h2 := byteBounded_w32 hbb1 _ _
  have e24 : readI32 h2 (r + 24) = 0 := by
    rw [h2def, readI32_w32I _ _ _ (by omega) (by omega)]
  have e8 : read64 h2 (r + 8) = 0 := by
    rw [h2def, read64_w32_of_ne _ _ _ _ (by omega), h1def,
      read64_w64_of_eq _ _ _ (by omega)]
  have hfuel : PAGE_SIZE ≤ 0 + 513 * bs := by
    have : 513 * 8 ≤ 513 * bs := Nat.mul_le_mul_left 513 hbs
    omega
  obtain ⟨h3, e_run, e_bb3, e_cnt, e_chain, e_follow, e_first, e_frame⟩ :=
    buildLoop_spec b bs r hbs hb hr hb64 hdisj 513 0 h2 hfuel hbb2 (by omega)
  have hz : read64 h3 (b + 0) = 0 := by rw [e_first (by omega), e8]
  rw [Nat.add_zero] at hz
  obtain ⟨z0, z1, z2, z3, z4, z5, z6, z7⟩ := read64_zero_bytes hz
  set h4 := w8 h3 b proc with h4def
  set h5 := w8 h4 (b + 4) cls with h5def
  have hblocks : blocksFrom b bs 0 513 = b :: blocksFrom b bs bs 512 := by
    show blocksFrom b bs 0 (512 + 1) = _
    rw [blocksFrom]
    rw [if_pos (by norm_num [PAGE_SIZE])]
    norm_num
  set T := blocksFrom b bs bs 512 with Tdef
  have hTmem : ∀ x ∈ T, b + bs ≤ x ∧ x < b + PAGE_SIZE := by
    intro x hx
    exact blocksFrom_mem b bs 512 bs x hx
  -- split the build chain into its strict prefix and the base block
  have e_chain2 : chaseN h3 (read64 h3 (r + 8)) (T.length + 1)
      = T.reverse ++ [b] := by
    have hlen : (blocksFrom b bs 0 513).length = T.length + 1 := by
      rw [hblocks]; simp
    rw [← hlen, e_chain, hblocks]
    simp
  rw [chaseN_succ] at e_chain2
  have hlens : (chaseN h3 (read64 h3 (r + 8)) T.length).length
      = T.reverse.length := by
    rw [chaseN_length]; simp
  obtain ⟨eC, eFs⟩ := List.append_inj e_chain2 hlens
  have eF : follow h3 (read64 h3 (r + 8)) T.length = b := by
    simpa using eFs
  -- reads of the chain prefix are unaffected by the metadata bytes
  have hagree : ∀ x ∈ chaseN h3 (read64 h3 (r + 8)) T.length,
      read64 h5 x = read64 h3 x := by
    intro x hx
    rw [eC] at hx
    rw [List.mem_reverse] at hx
    obtain ⟨hx1, _⟩ := hTmem x hx
    rw [h5def, read64_w8_of_ne _ _ _ _ (by omega), h4def,
      read64_w8_of_ne _ _ _ _ (by omega)]
  have hd5 : read64 h5 (r + 8) = read64 h3 (r + 8) := by
    rw [h5def, read64_w8_of_ne _ _ _ _ (by omega), h4def,
      read64_w8_of_ne _ _ _ _ (by omega)]
  -- the metadata bytes themselves
  have hb5_0 : h5 b = proc := by
    rw [h5def, w8_other _ _ _ _ (by omega), h4def, w8_same]
    exact Nat.mod_eq_of_lt hproc
  have hb5_1 : h5 (b + 1) = 0 := by
    rw [h5def, w8_other _ _ _ _ (by omega), h4def, w8_other _ _ _ _ (by omega)]
    exact z1
  have hb5_2 : h5 (b + 2) = 0 := by
    rw [h5def, w8_other _ _ _ _ (by omega), h4def, w8_other _ _ _ _ (by omega)]
    exact z2
  have hb5_3 : h5 (b + 3) = 0 := by
    rw [h5def, w8_other _ _ _ _ (by omega), h4def, w8_other _ _ _ _ (by omega)]
    exact z3
  have hb5_4 : h5 (b + 4) = cls := by
    rw [h5def, w8_same]
    exact Nat.mod_eq_of_lt hcls
  have hb5_5 : h5 (b + 4 + 1) = 0 := by
    rw [h5def, w8_other _ _ _ _ (by omega), h4def, w8_other _ _ _ _ (by omega),
      show b + 4 + 1 = b + 5 by omega]
    exact z5
  have hb5_6 : h5 (b + 4 + 2) = 0 := by
    rw [h5def, w8_other _ _ _ _ (by omega), h4def, w8_other _ _ _ _ (by omega),
      show b + 4 + 2 = b + 6 by omega]
    exact z6
  have hb5_7 : h5 (b + 4 + 3) = 0 := by
    rw [h5def, w8_other _ _ _ _ (by omega), h4def, w8_other _ _ _ _ (by omega),
      show b + 4 + 3 = b + 7 by omega]
    exact z7
  refine ⟨h5, ?_, ?_, ?_, ?_, ?_, ?_, ?_⟩
  · -- the run equation
    rw [write64_ok h (r + 8) 0 (by omega)]
    simp only [ok_bind]
    rw [← h1def, writeI32_ok h1 (r + 24) 0 (by omega)]
    simp only [ok_bind]
    rw [← h2def, e_run]
    simp only [ok_bind, writeMeta]
    rw [writeByte_ok h3 b proc (by omega)]
    simp only [ok_bind]
    rw [← h4def, writeByte_ok h4 (b + 4) cls (by omega), ← h5def]
  · exact byteBounded_w8 (byteBounded_w8 e_bb3 _ _) _ _
  · -- num_free equals the block count
    have : readI32 h5 (r + 24) = readI32 h3 (r + 24) := by
      rw [h5def, readI32_congr _ fun k hk => w8_other _ _ _ _ (by omega), h4def,
        readI32_congr _ fun k hk => w8_other _ _ _ _ (by omega)]
    rw [this, e_cnt, e24]
    omega
  · simp only [readI32, read32, hb5_0, hb5_1, hb5_2, hb5_3]
    rw [if_pos (by omega)]
    norm_num
  · simp only [readI32, read32, hb5_4, hb5_5, hb5_6, hb5_7]
    rw [if_pos (by omega)]
    norm_num
  · rw [hd5]
    have hlen : (blocksFrom b bs 0 513).length = T.length + 1 := by
      rw [hblocks]; simp
    rw [hlen, chaseN_succ, chaseN_congr2 T.length _ hagree, eC,
      follow_congr T.length _ hagree, eF, hblocks]
    simp
  · intro x hx1 hx2 hx3
    rw [h5def, w8_other _ _ _ _ (by omega), h4def, w8_other _ _ _ _ (by omega),
      e_frame x (by omega) hx2 hx3, h2def, w32_other _ _ _ _ (by omega),
      h1def, w64_other _ _ _ _ (by omega)]


lemma popBlock_chain (h : Heap) (r : Nat) (n : Nat) (l : List Nat)
    (hbb : byteBounded h) (hr : dsegLo ≤ r)
    (hn : readI32 h (r + 24) = (n : Int) + 1)
    (hchain : chaseN h (read64 h (r + 8)) (n + 1) = l)
    (hnodes : ∀ x ∈ l, x + 8 ≤ r ∨ r + 32 ≤ x) :
    ∃ pb, popBlock h r = .ok pb ∧ byteBounded pb.1 ∧
      readI32 pb.1 (r + 24) = (n : Int) ∧
      chaseN pb.1 (read64 pb.1 (r + 8)) n = l.tail := by
  have hds : dsegLo = 4096 := rfl
  have hI := readI32_bounds hbb (r + 24)
  have hl : read64 h (r + 8) :: chaseN h (read64 h (read64 h (r + 8))) n = l :=
    hchain
  have hhd : read64 h (r + 8) ∈ l := by rw [← hl]; simp
  set hD1 := w32 h (r + 24)
    (((readI32 h (r + 24) - 1) % (2 ^ 32 : Int)).toNat) with hD1def
  have hbb1 : byteBounded hD1 := byteBounded_w32 hbb _ _
  have e24 : readI32 hD1 (r + 24) = (n : Int) := by
    rw [hD1def, readI32_w32I _ _ _ (by omega) (by omega)]
    omega
  have ehd : read64 hD1 (read64 h (r + 8)) = read64 h (read64 h (r + 8)) := by
    have := hnodes _ hhd
    rw [hD1def, read64_w32_of_ne _ _ _ _ (by omega)]
  set hD2 := w64 hD1 (r + 8) (read64 hD1 (read64 h (r + 8))) with hD2def
  have hbb2 : byteBounded hD2 := byteBounded_w64 hbb1 _ _
  have e24b : readI32 hD2 (r + 24) = (n : Int) := by
    rw [hD2def, readI32_w64_of_ne _ _ _ _ (by omega)]
    exact e24
  have e8 : read64 hD2 (r + 8) = read64 h (read64 h (r + 8)) := by
    rw [hD2def, read64_w64_of_eq _ _ _ (read64_lt hbb1 _), ehd]
  have echain : chaseN hD2 (read64 hD2 (r + 8)) n = l.tail := by
    rw [e8]
    have htail : chaseN h (read64 h (read64 h (r + 8))) n = l.tail := by
      rw [← hl, List.tail_cons]
    rw [← htail]
    apply chaseN_congr2
    intro x hx
    have hxl : x ∈ l := by
      rw [← hl]
      exact List.mem_cons_of_mem _ hx
    have := hnodes x hxl
    rw [hD2def, read64_w64_of_ne _ _ _ _ (by omega), hD1def,
      read64_w32_of_ne _ _ _ _ (by omega)]
  by_cases hc : read64 h (r + 8) = read64 hD2 (r + 16)
  · refine ⟨(hD2, read64 h (r + 8) + 8), ?_, hbb2, e24b, echain⟩
    simp only [popBlock]
    rw [writeI32_ok h (r + 24) _ (by omega)]
    simp only [ok_bind]
    rw [← hD1def, write64_ok hD1 (r + 8) _ (by omega)]
    simp only [ok_bind]
    rw [← hD2def, if_pos hc]
  · refine ⟨(hD2, read64 h (r + 8)), ?_, hbb2, e24b, echain⟩
    simp only [popBlock]
    rw [writeI32_ok h (r + 24) _ (by omega)]
    simp only [ok_bind]
    rw [← hD1def, write64_ok hD1 (r + 8) _ (by omega)]
    simp only [ok_bind]
    rw [← hD2def, if_neg hc]

lemma pushBlock_chain (h : Heap) (r ptr : Nat) (n : Nat) (l : List Nat)
    (hbb : byteBounded h) (hr : dsegLo ≤ r) (hptr : dsegLo ≤ ptr)
    (hptr64 : ptr < 2 ^ 64)
    (hcnt : readI32 h (r + 24) = (n : Int)) (hcnt2 : (n : Int) + 1 < 2 ^ 31)
    (hchain : chaseN h (read64 h (r + 8)) n = l)
    (hptrr : ptr + 8 ≤ r ∨ r + 32 ≤ ptr)
    (hnodes : ∀ x ∈ l, (x + 8 ≤ r ∨ r + 32 ≤ x) ∧ (x + 8 ≤ ptr ∨ ptr + 8 ≤ x)) :
    ∃ h2, pushBlock h r ptr = .ok h2 ∧ byteBounded h2 ∧
      readI32 h2 (r + 24) = (n : Int) + 1 ∧
      chaseN h2 (read64 h2 (r + 8)) (n + 1) = ptr :: l := by
  have hds : dsegLo = 4096 := rfl
  set hD1 := w64 h (r + 8) ptr with hD1def
  have hbb1 : byteBounded hD1 := byteBounded_w64 hbb _ _
  set hD2 := w64 hD1 ptr (read64 h (r + 8)) with hD2def
  have hbb2 : byteBounded hD2 := byteBounded_w64 hbb1 _ _
  have e24 : readI32 hD2 (r + 24) = (n : Int) := by
    rw [hD2def, readI32_w64_of_ne _ _ _ _ (by omega), hD1def,
      readI32_w64_of_ne _ _ _ _ (by omega)]
    exact hcnt
  set hD3 := w32 hD2 (r + 24)
    (((readI32 hD2 (r + 24) + 1) % (2 ^ 32 : Int)).toNat) with hD3def
  have hbb3 : byteBounded hD3 := byteBounded_w32 hbb2 _ _
  have e24b : readI32 hD3 (r + 24) = (n : Int) + 1 := by
    rw [hD3def, readI32_w32I _ _ _ (by omega) (by omega), e24]
  have e8 : read64 hD3 (r + 8) = ptr := by
    rw [hD3def, read64_w32_of_ne _ _ _ _ (by omega), hD2def,
      read64_w64_of_ne _ _ _ _ (by omega), hD1def,
      read64_w64_of_eq _ _ _ hptr64]
  have eptr : read64 hD3 ptr = read64 h (r + 8) := by
    rw [hD3def, read64_w32_of_ne _ _ _ _ (by omega), hD2def,
      read64_w64_of_eq _ _ _ (read64_lt hbb _)]
  have echain : chaseN hD3 (read64 hD3 (r + 8)) (n + 1) = ptr :: l := by
    rw [e8]
    show ptr :: chaseN hD3 (read64 hD3 ptr) n = ptr :: l
    rw [eptr, ← hchain]
    apply congrArg
    apply chaseN_congr2
    intro x hx
    rw [hchain] at hx
    obtain ⟨hx1, hx2⟩ := hnodes x hx
    rw [hD3def, read64_w32_of_ne _ _ _ _ (by omega), hD2def,
      read64_w64_of_ne _ _ _ _ (by omega), hD1def,
      read64_w64_of_ne _ _ _ _ (by omega)]
  refine ⟨hD3, ?_, hbb3, e24b, echain⟩
  simp only [pushBlock]
  rw [write64_ok h (r + 8) ptr (by omega)]
  simp only [ok_bind]
  rw [← hD1def, write64_ok hD1 ptr _ (by omega)]
  simp only [ok_bind]
  rw [← hD2def, writeI32_ok hD2 (r + 24) _ (by omega)]

/-! Claim theorems. -/
/-- C9: no subpage allocation ever returns a pointer overlapping the two
metadata words at the page base.  First conjunct: popping a freelist
head that coincides with the page base (freelist_base) returns the page
base plus two words.  Second conjunct: freeing pushes the freed pointer
itself onto the freelist, so the stored head is that pointer, not the
page base.  Third conjunct: popping a head equal to page base plus 8
returns it unchanged, so the base-coincident adjustment happens at most
once and the metadata words are never handed out. -/
theorem C9_no_metadata_overlap :
    (∀ h r, dsegLo ≤ r → read64 h (r + 8) = read64 h (r + 16) →
      ∃ pb, popBlock h r = Except.ok pb ∧ pb.2 = read64 h (r + 16) + 8) ∧
    (∀ h r ptr, dsegLo ≤ r → dsegLo ≤ ptr → ptr < 2 ^ 64 →
      (ptr + 8 ≤ r + 8 ∨ r + 16 ≤ ptr) →
      ∃ h2, pushBlock h r ptr = Except.ok h2 ∧ read64 h2 (r + 8) = ptr) ∧
    (∀ h r, dsegLo ≤ r → read64 h (r + 8) = read64 h (r + 16) + 8 →
      ∃ pb, popBlock h r = Except.ok pb ∧ pb.2 = read64 h (r + 16) + 8) := by
  have hds : dsegLo = 4096 := rfl
  refine ⟨?_, ?_, ?_⟩
  · intro h r hr hbase
    set hD1 := w32 h (r + 24)
      (((readI32 h (r + 24) - 1) % (2 ^ 32 : Int)).toNat) with hD1def
    set hD2 := w64 hD1 (r + 8) (read64 hD1 (read64 h (r + 8))) with hD2def
    have e16 : read64 hD2 (r + 16) = read64 h (r + 16) := by
      rw [hD2def, read64_w64_of_ne _ _ _ _ (by omega), hD1def,
        read64_w32_of_ne _ _ _ _ (by omega)]
    refine ⟨(hD2, read64 h (r + 8) + 8), ?_, by simp [hbase]⟩
    simp only [popBlock]
    rw [writeI32_ok h (r + 24) _ (by omega)]
    simp only [ok_bind]
    rw [← hD1def, write64_ok hD1 (r + 8) _ (by omega)]
    simp only [ok_bind]
    rw [← hD2def, if_pos (by rw [e16, ← hbase])]
  · intro h r ptr hr hptr hptr64 hdisj
    set hD1 := w64 h (r + 8) ptr with hD1def
    set hD2 := w64 hD1 ptr (read64 h (r + 8)) with hD2def
    set hD3 := w32 hD2 (r + 24)
      (((readI32 hD2 (r + 24) + 1) % (2 ^ 32 : Int)).toNat) with hD3def
    refine ⟨hD3, ?_, ?_⟩
    · simp only [pushBlock]
      rw [write64_ok h (r + 8) ptr (by omega)]
      simp only [ok_bind]
      rw [← hD1def, write64_ok hD1 ptr _ (by omega)]
      simp only [ok_bind]
      rw [← hD2def, writeI32_ok hD2 (r + 24) _ (by omega)]
    · rw [hD3def, read64_w32_of_ne _ _ _ _ (by omega), hD2def,
        read64_w64_of_ne _ _ _ _ (by omega), hD1def,
        read64_w64_of_eq _ _ _ hptr64]
  · intro h r hr hbase
    set hD1 := w32 h (r + 24)
      (((readI32 h (r + 24) - 1) % (2 ^ 32 : Int)).toNat) with hD1def
    set hD2 := w64 hD1 (r + 8) (read64 hD1 (read64 h (r + 8))) with hD2def
    have e16 : read64 hD2 (r + 16) = read64 h (r + 16) := by
      rw [hD2def, read64_w64_of_ne _ _ _ _ (by omega), hD1def,
        read64_w32_of_ne _ _ _ _ (by omega)]
    refine ⟨(hD2, read64 h (r + 8)), ?_, by simp [hbase]⟩
    simp only [popBlock]
    rw [writeI32_ok h (r + 24) _ (by omega)]
    simp only [ok_bind]
    rw [← hD1def, write64_ok hD1 (r + 8) _ (by omega)]
    simp only [ok_bind]
    rw [← hD2def, if_neg (by rw [e16, hbase]; omega)]

/-- C9 witness: the three conjuncts applied at a concrete heap holding a
small freelist, with every hypothesis discharged by computation. -/
theorem C9_no_metadata_overlap_witness :
    (dsegLo ≤ 8192 ∧
      read64 (w64 (w64 (fun _ => 0) (8192 + 8) 12288) (8192 + 16) 12288) (8192 + 8)
        = read64 (w64 (w64 (fun _ => 0) (8192 + 8) 12288) (8192 + 16) 12288) (8192 + 16)) ∧
    (∃ pb, popBlock (w64 (w64 (fun _ => 0) (8192 + 8) 12288) (8192 + 16) 12288) 8192 = Except.ok pb ∧
      pb.2 = read64 (w64 (w64 (fun _ => 0) (8192 + 8) 12288) (8192 + 16) 12288) (8192 + 16) + 8) ∧
    ∃ h2, pushBlock (fun _ => 0) 8192 12296 = Except.ok h2 ∧
      read64 h2 (8192 + 8) = 12296 := by
  refine ⟨⟨by decide, by decide⟩, ?_, ?_⟩
  · exact C9_no_metadata_overlap.1 (w64 (w64 (fun _ => 0) (8192 + 8) 12288) (8192 + 16) 12288) 8192
      (by decide) (by decide)
  · exact C9_no_metadata_overlap.2.1 (fun _ => 0) 8192 12296 (by decide)
      (by decide) (by decide) (by decide)
/-- C7: a subpage free that fills the page detaches the pageref, zeroes
the whole 4 KiB page, and pushes the pageref onto the reusable pool
still bound to its data page; a subsequent allocate_pageref then serves
that pageref again without any sbrk (the break does not move) and with
the same bound data page.  The detach target D is the arena head slot
when the pageref was the list head (prior = 0) and the prior node
otherwise. -/
theorem C7_full_page_recycle
    (s : AllocState) (ptr fuel r prior p c : Nat)
    (hbb : byteBounded s.heap)
    (hr : dsegLo ≤ r) (hptr : dsegLo ≤ ptr)
    (hph64 : get_page_head ptr + PAGE_SIZE < 2 ^ 64)
    (hp : readI32 s.heap (get_page_head ptr) = (p : Int))
    (hc : readI32 s.heap (get_page_head ptr + 4) = (c : Int))
    (hfw : freeWalk fuel s.heap (pageref_head s.heap p c) 0 (get_page_head ptr)
      = Except.ok (r, prior))
    (hn : readI32 s.heap (r + 24)
      = ((PAGE_SIZE / (1 <<< (c + BASE_CLASS)) : Nat) : Int) - 1)
    (hbase : read64 s.heap (r + 16) = get_page_head ptr)
    (hrpage : get_page_head ptr + PAGE_SIZE + 8 ≤ r ∨ r + 32 ≤ get_page_head ptr)
    (hDz : dsegLo ≤ (if prior = 0 then slotAddr p c else prior))
    (hDr : (if prior = 0 then slotAddr p c else prior) + 8 ≤ r ∨
      r + 32 ≤ (if prior = 0 then slotAddr p c else prior))
    (hDpage : (if prior = 0 then slotAddr p c else prior) + 8 ≤ get_page_head ptr ∨
      get_page_head ptr + PAGE_SIZE ≤ (if prior = 0 then slotAddr p c else prior)) :
    ∃ s2, subpage_mm_free s ptr fuel = Except.ok (1, s2) ∧
      s2.brk = s.brk ∧
      s2.reusable_page_refs = r ∧
      byteBounded s2.heap ∧
      read64 s2.heap (r + 16) = get_page_head ptr ∧
      (∀ x, get_page_head ptr ≤ x → x < get_page_head ptr + PAGE_SIZE →
        s2.heap x = 0) ∧
      read64 s2.heap (if prior = 0 then slotAddr p c else prior)
        = read64 s.heap r ∧
      (∀ p2 c2, p2 < 256 → c2 < 256 →
        (slotAddr p2 c2 + 8 ≤ r ∨ r + 32 ≤ slotAddr p2 c2) →
        ∃ s3, allocate_pageref s2 p2 c2 = Except.ok (r, s3) ∧
          s3.brk = s.brk ∧ read64 s3.heap (r + 16) = get_page_head ptr) := by
  have hds : dsegLo = 4096 := rfl
  have hpg : PAGE_SIZE = 4096 := rfl
  obtain ⟨hgle, hglt, hgds⟩ := get_page_head_spec ptr hptr
  have hcap : (PAGE_SIZE / (1 <<< (c + BASE_CLASS)) : Nat) ≤ PAGE_SIZE :=
    Nat.div_le_self _ _
  have hIb := readI32_bounds hbb (r + 24)
  -- the push writes
  set hQ1 := w64 s.heap (r + 8) ptr with hQ1def
  set hQ2 := w64 hQ1 ptr (read64 s.heap (r + 8)) with hQ2def
  have hbb1 : byteBounded hQ1 := byteBounded_w64 hbb _ _
  have hbb2 : byteBounded hQ2 := byteBounded_w64 hbb1 _ _
  have eQ24 : readI32 hQ2 (r + 24)
      = ((PAGE_SIZE / (1 <<< (c + BASE_CLASS)) : Nat) : Int) - 1 := by
    rw [hQ2def, readI32_w64_of_ne _ _ _ _ (by omega), hQ1def,
      readI32_w64_of_ne _ _ _ _ (by omega), hn]
  set hP := w32 hQ2 (r + 24)
    (((readI32 hQ2 (r + 24) + 1) % (2 ^ 32 : Int)).toNat) with hPdef
  have hbb3 : byteBounded hP := byteBounded_w32 hbb2 _ _
  have eP24 : readI32 hP (r + 24)
      = ((PAGE_SIZE / (1 <<< (c + BASE_CLASS)) : Nat) : Int) := by
    rw [hPdef, readI32_w32I _ _ _ (by omega) (by omega), eQ24]
    omega
  have hpush : pushBlock s.heap r ptr = .ok hP := by
    simp only [pushBlock]
    rw [write64_ok s.heap (r + 8) ptr (by omega)]
    simp only [ok_bind]
    rw [← hQ1def, write64_ok hQ1 ptr _ (by omega)]
    simp only [ok_bind]
    rw [← hQ2def, writeI32_ok hQ2 (r + 24) _ (by omega)]
  -- the detach write
  have ePr : read64 hP r = read64 s.heap r := by
    rw [hPdef, read64_w32_of_ne _ _ _ _ (by omega), hQ2def,
      read64_w64_of_ne _ _ _ _ (by omega), hQ1def,
      read64_w64_of_ne _ _ _ _ (by omega)]
  set hDet := w64 hP (if prior = 0 then slotAddr p c else prior)
    (read64 hP r) with hDetdef
  have hbb4 : byteBounded hDet := byteBounded_w64 hbb3 _ _
  have hdetach : (if prior ≠ 0 then write64 hP prior (read64 hP r)
      else set_pageref_head hP p c (read64 hP r)) = .ok hDet := by
    by_cases hpr : prior = 0
    · rw [if_neg (by simp [hpr]), set_pageref_head,
        write64_ok _ _ _ (by have := slotAddr_ge p c; omega), hDetdef,
        if_pos hpr]
    · rw [if_pos hpr, write64_ok _ _ _ (by rw [if_neg hpr] at hDz; omega),
        hDetdef, if_neg hpr]
  have e16Det : read64 hDet (r + 16) = get_page_head ptr := by
    rw [hDetdef, read64_w64_of_ne _ _ _ _ (by omega), hPdef,
      read64_w32_of_ne _ _ _ _ (by omega), hQ2def,
      read64_w64_of_ne _ _ _ _ (by omega), hQ1def,
      read64_w64_of_ne _ _ _ _ (by omega), hbase]
  -- the zeroed page and the final reusable push
  set hZ := (fun x => if get_page_head ptr ≤ x ∧ x < get_page_head ptr + PAGE_SIZE
    then (0 : Nat) else hDet x) with hZdef
  have hbbZ : byteBounded hZ := by
    intro x
    simp only [hZdef]
    split
    · omega
    · exact hbb4 x
  set hF := w64 hZ r s.reusable_page_refs with hFdef
  have hbbF : byteBounded hF := byteBounded_w64 hbbZ _ _
  have eF16 : read64 hF (r + 16) = get_page_head ptr := by
    rw [hFdef, read64_w64_of_ne _ _ _ _ (by omega)]
    have : read64 hZ (r + 16) = read64 hDet (r + 16) := by
      apply read64_congr
      intro k hk
      simp only [hZdef]
      rw [if_neg (by omega)]
    rw [this, e16Det]
  refine ⟨{ s with heap := hF, reusable_page_refs := r }, ?_, rfl, rfl, hbbF,
    eF16, ?_, ?_, ?_⟩
  · -- the run of subpage_mm_free
    simp only [subpage_mm_free]
    rw [hp, if_neg (by omega), hc]
    simp only [Int.toNat_natCast]
    rw [hfw]
    simp only [ok_bind]
    rw [hpush]
    simp only [ok_bind]
    rw [eP24, if_pos rfl]
    by_cases hpr : prior = 0
    · rw [if_neg (show ¬prior ≠ 0 by simp [hpr]), set_pageref_head,
        write64_ok _ _ _ (by have := slotAddr_ge p c; omega)]
      simp only [ok_bind]
      rw [show w64 hP (slotAddr p c) (read64 hP r) = hDet by
        rw [hDetdef, if_pos hpr]]
      rw [e16Det, bzero_ok hDet (get_page_head ptr) PAGE_SIZE (by omega)]
      simp only [ok_bind]
      rw [← hZdef, write64_ok hZ r s.reusable_page_refs (by omega)]
      simp only [ok_bind]
    · rw [if_pos hpr, write64_ok _ _ _ (by rw [if_neg hpr] at hDz; omega)]
      simp only [ok_bind]
      rw [show w64 hP prior (read64 hP r) = hDet by rw [hDetdef, if_neg hpr]]
      rw [e16Det, bzero_ok hDet (get_page_head ptr) PAGE_SIZE (by omega)]
      simp only [ok_bind]
      rw [← hZdef, write64_ok hZ r s.reusable_page_refs (by omega)]
      simp only [ok_bind]
  · -- the page is fully zeroed
    intro x hx1 hx2
    show hF x = 0
    rw [hFdef, w64_other _ _ _ _ (by omega)]
    simp only [hZdef]
    rw [if_pos (by omega)]
  · -- the pageref was detached
    show read64 hF (if prior = 0 then slotAddr p c else prior) = read64 s.heap r
    rw [hFdef, read64_w64_of_ne _ _ _ _ (by omega)]
    have : read64 hZ (if prior = 0 then slotAddr p c else prior)
        = read64 hDet (if prior = 0 then slotAddr p c else prior) := by
      apply read64_congr
      intro k hk
      simp only [hZdef]
      rw [if_neg (by omega)]
    rw [this, hDetdef, read64_w64_of_eq _ _ _ (read64_lt hbb3 _), ePr]
  · -- reacquisition from the reusable pool: no sbrk, same data page
    intro p2 c2 hp2 hc2 hslot2
    set hE1 := w64 hF r (pageref_head hF p2 c2) with hE1def
    have hbbE1 : byteBounded hE1 := byteBounded_w64 hbbF _ _
    set hE2 := w64 hE1 (slotAddr p2 c2) r with hE2def
    have hbbE2 : byteBounded hE2 := byteBounded_w64 hbbE1 _ _
    have eflb : read64 hE2 (r + 16) = get_page_head ptr := by
      rw [hE2def, read64_w64_of_ne _ _ _ _ (by omega), hE1def,
        read64_w64_of_ne _ _ _ _ (by omega), eF16]
    obtain ⟨h5, e_run5, e_bb5, _, _, _, _, e_frame5⟩ :=
      rebuild_spec hE2 (get_page_head ptr) r p2 c2 (1 <<< (c2 + BASE_CLASS))
        (block_size_ge c2) hgds hr hph64 (by omega) hbbE2 hp2 hc2
    refine ⟨{ s with heap := h5, reusable_page_refs := read64 hF r }, ?_, rfl, ?_⟩
    · simp only [allocate_pageref]
      rw [if_pos (show ({ s with heap := hF, reusable_page_refs := r }
        : AllocState).reusable_page_refs ≠ 0 by show r ≠ 0; omega)]
      simp only [ok_bind]
      rw [write64_ok _ _ _ (by omega)]
      simp only [ok_bind]
      rw [← hE1def]
      simp only [set_pageref_head]
      rw [write64_ok _ _ _ (by have := slotAddr_ge p2 c2; omega)]
      simp only [ok_bind]
      rw [← hE2def]
      simp only [Bool.false_eq_true, if_false, ok_bind]
      rw [eflb]
      simp only [← except_bind_assoc] at e_run5 ⊢
      rw [e_run5]
      simp only [ok_bind]
    · have : read64 h5 (r + 16) = read64 hE2 (r + 16) := by
        apply read64_congr
        intro k hk
        exact e_frame5 (r + 16 + k) (by omega) (by omega) (by omega)
      simp only [this, eflb]

/-- C1: the claim states that both large-allocation paths leave the
page count in the word before the returned pointer and the sentinel -1
in the word before that, in particular that the split path writes the
sentinel at the carved-off tail.  The code does not: on a fresh heap,
allocating a two-page span (pointer 8200) does write sentinel -1 and
count 2; but after freeing it, the 3000-byte request served by the
split path returns 12296 with page count 1 at 12292 and the value 0,
not -1, in the word at 12288.  The first conjunct shows the fresh path
conforming, the second exhibits the failing split input. -/
theorem C1_split_missing_sentinel :
    (sc2.toOption.map fun x =>
      (x.1, readI32 x.2.heap (x.1 - 8), readI32 x.2.heap (x.1 - 4)))
      = some (8200, -1, 2) ∧
    (sc4.toOption.map fun x =>
      (x.1, readI32 x.2.heap (x.1 - 4), readI32 x.2.heap (x.1 - 8)))
      = some (12296, 1, 0) ∧
    (0 : Int) ≠ -1 := by decide

/-- C2: the claim states every live large-allocation pointer is
redirected by mm_free to the large free path and released onto the big
freelist.  For the split-path pointer 12296 of scenario sc4 the first
word of its page is 0, not the -1 sentinel, so subpage_mm_free does
not redirect: it reads class 1 from the page-count word, walks the
empty (0, 1) pageref list, and dereferences the NULL pageref, which
the model reports as the nullwrite fault; the span is never pushed
onto the big freelist. -/
theorem C2_split_pointer_free_crashes :
    (sc4.toOption.map fun x =>
      (readI32 x.2.heap (get_page_head x.1), x.2.big_list)) = some (0, 8196) ∧
    sc5 = Except.error "nullwrite" :=
  ⟨by decide, by rfl⟩

/-- C3 counterexample: the claim states the metadata fields are written
as whole machine words.  The source writeMeta stores single bytes at
offsets 0 and 4; on a page whose byte 1 holds 7, the source write
leaves the first word reading 1792 instead of the processor index 0,
while the word-sized write the spec mandates (writeMetaSpec) yields 0.
So the write is not word-sized. -/
theorem C3_counterexample :
    (writeMeta gBad 4096 0 8).toOption.map (fun h => readI32 h 4096)
      = some 1792 ∧
    (writeMetaSpec gBad 4096 0 8).toOption.map (fun h => readI32 h 4096)
      = some 0 ∧
    (1792 : Int) ≠ 0 := by decide

/-- C3 amended: the metadata is written as single bytes at offsets 0
and 4 (writeMeta), but after the freelist build of allocate_pageref,
which zeroes the eight bytes of the page base by storing the NULL next
pointer of the first chained block, reading the first two words back
still yields exactly the pair (processor, class), with the first word
nonnegative. -/
theorem C3_metadata_pair (h : Heap) (b r proc cls bs : Nat)
    (hbs : 8 ≤ bs) (hb : dsegLo ≤ b) (hr : dsegLo ≤ r)
    (hb64 : b + PAGE_SIZE < 2 ^ 64)
    (hdisj : b + PAGE_SIZE + 8 ≤ r ∨ r + 32 ≤ b)
    (hbb : byteBounded h) (hproc : proc < 256) (hcls : cls < 256) :
    ∃ h5, (do
        let g1 ← write64 h (r + 8) 0
        let g2 ← writeI32 g1 (r + 24) 0
        let g3 ← buildLoop 513 g2 b bs r 0
        writeMeta g3 b proc cls) = Except.ok h5 ∧
      readI32 h5 b = (proc : Int) ∧ 0 ≤ readI32 h5 b ∧
      readI32 h5 (b + 4) = (cls : Int) := by
  obtain ⟨h5, e1, _, _, eb, eb4, _, _⟩ :=
    rebuild_spec h b r proc cls bs hbs hb hr hb64 hdisj hbb hproc hcls
  exact ⟨h5, e1, eb, by rw [eb]; omega, eb4⟩

/-- C3 witness: the amended metadata theorem applied at a concrete
freshly zeroed heap, page base 12288, pageref 8192, class 8. -/
theorem C3_metadata_pair_witness :
    (8 ≤ 2048 ∧ dsegLo ≤ 12288 ∧ (0 : Nat) < 256) ∧
    ∃ h5, (do
        let g1 ← write64 (fun _ => 0) (8192 + 8) 0
        let g2 ← writeI32 g1 (8192 + 24) 0
        let g3 ← buildLoop 513 g2 12288 2048 8192 0
        writeMeta g3 12288 0 8) = Except.ok h5 ∧
      readI32 h5 12288 = ((0 : Nat) : Int) ∧ 0 ≤ readI32 h5 12288 ∧
      readI32 h5 (12288 + 4) = ((8 : Nat) : Int) :=
  ⟨⟨by decide, by decide, by decide⟩,
    C3_metadata_pair (fun _ => 0) 12288 8192 0 8 2048 (by decide) (by decide)
      (by decide) (by decide) (by decide) bb_zero (by decide) (by decide)⟩

/-- C4 counterexample: the claim states num_free equals the number of
nodes reachable from the freelist head after building a fresh page
freelist.  Running allocate_pageref for (processor 0, class 8) on the
initialized state builds the page at 12288; the metadata byte writes
clobber the NULL terminator stored in the base block, so the chain
from the head reaches 3 nodes (the last being the garbage pointer
34359738368 assembled from the metadata bytes) while num_free is 2. -/
theorem C4_counterexample :
    (ap1.toOption.map fun x =>
      ((chaseToNull x.2.heap (read64 x.2.heap (x.1 + 8)) 10).map List.length,
        readI32 x.2.heap (x.1 + 24)))
      = some (some 3, 2) ∧ (3 : Nat) ≠ 2 := by decide

/-- C4 amended: num_free counts the valid prefix of the chain.  After
the freelist build and metadata write of allocate_pageref, following
the next pointers num_free times from the head visits exactly the
block starts of the page, in descending order, all distinct and inside
the page; popping a block shortens that prefix by one and decrements
num_free; pushing a freed block extends it by that block and
increments num_free.  The NULL terminator itself is clobbered by the
metadata bytes, so the claim holds for this num_free-length prefix
rather than for the NULL-terminated chain. -/
theorem C4_num_free_front :
    (∀ h b r proc cls bs, 8 ≤ bs → dsegLo ≤ b → dsegLo ≤ r →
      b + PAGE_SIZE < 2 ^ 64 → (b + PAGE_SIZE + 8 ≤ r ∨ r + 32 ≤ b) →
      byteBounded h → proc < 256 → cls < 256 →
      ∃ h5, (do
          let g1 ← write64 h (r + 8) 0
          let g2 ← writeI32 g1 (r + 24) 0
          let g3 ← buildLoop 513 g2 b bs r 0
          writeMeta g3 b proc cls) = Except.ok h5 ∧
        readI32 h5 (r + 24) = ((blocksFrom b bs 0 513).length : Int) ∧
        chaseN h5 (read64 h5 (r + 8)) (blocksFrom b bs 0 513).length
          = (blocksFrom b bs 0 513).reverse ∧
        (blocksFrom b bs 0 513).Nodup ∧
        ∀ q ∈ blocksFrom b bs 0 513, b ≤ q ∧ q < b + PAGE_SIZE) ∧
    (∀ (h : Heap) (r n : Nat) (l : List Nat), byteBounded h → dsegLo ≤ r →
      readI32 h (r + 24) = (n : Int) + 1 →
      chaseN h (read64 h (r + 8)) (n + 1) = l →
      (∀ x ∈ l, x + 8 ≤ r ∨ r + 32 ≤ x) →
      ∃ pb, popBlock h r = Except.ok pb ∧
        readI32 pb.1 (r + 24) = (n : Int) ∧
        chaseN pb.1 (read64 pb.1 (r + 8)) n = l.tail) ∧
    (∀ (h : Heap) (r ptr n : Nat) (l : List Nat), byteBounded h →
      dsegLo ≤ r → dsegLo ≤ ptr →
      ptr < 2 ^ 64 →
      readI32 h (r + 24) = (n : Int) → (n : Int) + 1 < 2 ^ 31 →
      chaseN h (read64 h (r + 8)) n = l →
      (ptr + 8 ≤ r ∨ r + 32 ≤ ptr) →
      (∀ x ∈ l, (x + 8 ≤ r ∨ r + 32 ≤ x) ∧ (x + 8 ≤ ptr ∨ ptr + 8 ≤ x)) →
      ∃ h2, pushBlock h r ptr = Except.ok h2 ∧
        readI32 h2 (r + 24) = (n : Int) + 1 ∧
        chaseN h2 (read64 h2 (r + 8)) (n + 1) = ptr :: l) := by
  refine ⟨?_, ?_, ?_⟩
  · intro h b r proc cls bs hbs hb hr hb64 hdisj hbb hproc hcls
    obtain ⟨h5, e1, _, e2, _, _, e3, _⟩ :=
      rebuild_spec h b r proc cls bs hbs hb hr hb64 hdisj hbb hproc hcls
    refine ⟨h5, e1, e2, e3, blocksFrom_nodup b bs (by omega) 513 0, ?_⟩
    intro q hq
    have := blocksFrom_mem b bs 513 0 q hq
    omega
  · intro h r n l hbb hr hn hchain hnodes
    obtain ⟨pb, e1, _, e2, e3⟩ := popBlock_chain h r n l hbb hr hn hchain hnodes
    exact ⟨pb, e1, e2, e3⟩
  · intro h r ptr n l hbb hr hptr hptr64 hcnt hcnt2 hchain hptrr hnodes
    obtain ⟨h2, e1, _, e2, e3⟩ :=
      pushBlock_chain h r ptr n l hbb hr hptr hptr64 hcnt hcnt2 hchain
        hptrr hnodes
    exact ⟨h2, e1, e2, e3⟩

/-- C4 witness: the three conjuncts of the amended num_free invariant
applied at concrete heaps: a fresh build for class 8 at page 12288,
a pop from the two-node freelist of c4PopHeap, and a push of the block
12296 onto the one-node freelist of c4PushHeap. -/
theorem C4_num_free_front_witness :
    (∃ h5, (do
        let g1 ← write64 (fun _ => 0) (8192 + 8) 0
        let g2 ← writeI32 g1 (8192 + 24) 0
        let g3 ← buildLoop 513 g2 12288 2048 8192 0
        writeMeta g3 12288 0 8) = Except.ok h5 ∧
      readI32 h5 (8192 + 24) = ((blocksFrom 12288 2048 0 513).length : Int) ∧
      chaseN h5 (read64 h5 (8192 + 8)) (blocksFrom 12288 2048 0 513).length
        = (blocksFrom 12288 2048 0 513).reverse ∧
      (blocksFrom 12288 2048 0 513).Nodup ∧
      ∀ q ∈ blocksFrom 12288 2048 0 513, 12288 ≤ q ∧ q < 12288 + PAGE_SIZE) ∧
    (∃ pb, popBlock c4PopHeap 8192 = Except.ok pb ∧
      readI32 pb.1 (8192 + 24) = ((1 : Nat) : Int) ∧
      chaseN pb.1 (read64 pb.1 (8192 + 8)) 1 = [14336, 12288].tail) ∧
    (∃ h2, pushBlock c4PushHeap 8192 12296 = Except.ok h2 ∧
      readI32 h2 (8192 + 24) = ((1 : Nat) : Int) + 1 ∧
      chaseN h2 (read64 h2 (8192 + 8)) (1 + 1) = 12296 :: [14336]) :=
  ⟨C4_num_free_front.1 (fun _ => 0) 12288 8192 0 8 2048 (by decide)
      (by decide) (by decide) (by decide) (by decide) bb_zero (by decide)
      (by decide),
    C4_num_free_front.2.1 c4PopHeap 8192 1 [14336, 12288]
      (byteBounded_w64 (byteBounded_w64 (byteBounded_w32 bb_zero _ _) _ _) _ _)
      (by decide) (by decide) (by decide) (by decide),
    C4_num_free_front.2.2 c4PushHeap 8192 12296 1 [14336]
      (byteBounded_w64 (byteBounded_w32 bb_zero _ _) _ _)
      (by decide) (by decide) (by decide) (by decide) (by decide) (by decide)
      (by decide) (by decide)⟩

/-- C5: the claim states allocate returns NULL when the substrate
cannot grow, on the subpage path too.  On the exhausted substrate the
big path does return NULL (second conjunct), but the subpage path does
not: allocate_pageref uses the NULL mem_sbrk result without a check,
and the carving loop then stores through the null page, which the
model reports as the nullwrite fault instead of a NULL return. -/
theorem C5_oom_subpage_faults :
    exSub = Except.error "nullwrite" ∧
    exBig.toOption.map (fun x => x.1) = some 0 :=
  ⟨by rfl, by decide⟩

/-- C6 counterexample: the claim states the second 2048-byte
allocation is served from the same page via the base-block swap.  The
second allocation returns 18432, which lies in page 16384, not in the
first page 12288: it is served from a freshly bound page, so the swap
rule did not serve it from the same page. -/
theorem C6_counterexample :
    (t2.toOption.map fun x => get_page_head x.1) = some 16384 ∧
    (t1.toOption.map fun x => get_page_head x.1) = some 12288 ∧
    (16384 : Nat) ≠ 12288 := by decide

/-- C6 amended: both 2048-byte allocations succeed, but not via the
swap rule.  The freelist build pushes blocks in address order, so the
head is the highest block and the first allocation already consumes
the non-base block 14336 of page 12288, leaving the base-coincident
block (head equal to freelist_base, num_free 1); a 2048-byte request
does not fit its 2040 usable bytes and num_free is not bigger than 1,
so the walk skips the page and the second allocation is served from
the freshly allocated page 16384, growing the break to 20480. -/
theorem C6_second_alloc_fresh_page :
    (t1.toOption.map fun x =>
      (x.1, get_page_head x.1, read64 x.2.heap (pageref_head x.2.heap 0 8 + 8),
        read64 x.2.heap (pageref_head x.2.heap 0 8 + 16),
        readI32 x.2.heap (pageref_head x.2.heap 0 8 + 24)))
      = some (14336, 12288, 12288, 12288, 1) ∧
    (t2.toOption.map fun x => (x.1, get_page_head x.1, x.2.brk))
      = some (18432, 16384, 20480) := by decide

/-- C7 witness: the full-page recycle theorem applied at the concrete
state c7state, freeing 14336 into the pageref at 8192 whose page
12288 has one of its two class-2048 blocks free. -/
theorem C7_full_page_recycle_witness :
    ∃ s2, subpage_mm_free c7state 14336 1 = Except.ok (1, s2) ∧
      s2.brk = c7state.brk ∧
      s2.reusable_page_refs = 8192 ∧
      byteBounded s2.heap ∧
      read64 s2.heap (8192 + 16) = get_page_head 14336 ∧
      (∀ x, get_page_head 14336 ≤ x → x < get_page_head 14336 + PAGE_SIZE →
        s2.heap x = 0) ∧
      read64 s2.heap (if (0 : Nat) = 0 then slotAddr 0 8 else 0)
        = read64 c7state.heap 8192 ∧
      (∀ p2 c2, p2 < 256 → c2 < 256 →
        (slotAddr p2 c2 + 8 ≤ 8192 ∨ 8192 + 32 ≤ slotAddr p2 c2) →
        ∃ s3, allocate_pageref s2 p2 c2 = Except.ok (8192, s3) ∧
          s3.brk = c7state.brk ∧
          read64 s3.heap (8192 + 16) = get_page_head 14336) :=
  C7_full_page_recycle c7state 14336 1 8192 0 0 8
    (byteBounded_w32 (byteBounded_w32 (byteBounded_w64 (byteBounded_w64
      (byteBounded_w64 bb_zero _ _) _ _) _ _) _ _) _ _)
    (by decide) (by decide) (by decide) (by decide) (by decide) (by rfl)
    (by decide) (by decide) (by decide) (by decide) (by decide) (by decide)

/-- C8: the claim states a second mm_init call leaves the state
unchanged, with no heap growth and the lock array unmoved, and that
-1 is returned only on substrate failure.  The -1 half holds (third
conjunct), but the second call is not idempotent: it runs mem_sbrk
again, growing the break from 8192 to 12288, and moves
processor_locks_base from 4168 to 8264 while still returning 0. -/
theorem C8_second_init_not_idempotent :
    (sc1.toOption.map fun s => (s.brk, s.processor_locks_base))
      = some (8192, 4168) ∧
    (in2.toOption.map fun x => (x.1, x.2.brk, x.2.processor_locks_base))
      = some (0, 12288, 8264) ∧
    in3.toOption.map (fun x => x.1) = some (-1) ∧
    (12288 : Nat) ≠ 8192 ∧ (8264 : Nat) ≠ 4168 := by decide

/-- C10: for every request size between 1 and 2048 (the sizes the
dispatcher sends to the subpage allocator), get_block_class_index
returns the smallest class index whose block size, two to the index
plus BASE_CLASS, is at least the request, that index is at most 8, and
in particular the -1 fallback is never taken. -/
theorem C10_class_index (sz : Nat) (h1 : 1 ≤ sz) (h2 : sz ≤ 2048) :
    ∃ i : Nat, get_block_class_index sz = (i : Int) ∧ i ≤ 8 ∧
      sz ≤ 2 ^ (i + BASE_CLASS) ∧
      ∀ j : Nat, j < i → 2 ^ (j + BASE_CLASS) < sz := by
  simp only [get_block_class_index, gbciGo, Nat.shiftLeft_eq, BASE_CLASS]
  split_ifs with g0 g1 g2 g3 g4 g5 g6 g7
  · norm_num at g0
    exact ⟨0, by norm_num, by norm_num, by norm_num <;> omega,
      fun j hj => by omega⟩
  · norm_num at g0 g1
    exact ⟨1, by norm_num, by norm_num, by norm_num <;> omega,
      fun j hj => by interval_cases j <;> norm_num <;> omega⟩
  · norm_num at g0 g1 g2
    exact ⟨2, by norm_num, by norm_num, by norm_num <;> omega,
      fun j hj => by interval_cases j <;> norm_num <;> omega⟩
  · norm_num at g0 g1 g2 g3
    exact ⟨3, by norm_num, by norm_num, by norm_num <;> omega,
      fun j hj => by interval_cases j <;> norm_num <;> omega⟩
  · norm_num at g0 g1 g2 g3 g4
    exact ⟨4, by norm_num, by norm_num, by norm_num <;> omega,
      fun j hj => by interval_cases j <;> norm_num <;> omega⟩
  · norm_num at g0 g1 g2 g3 g4 g5
    exact ⟨5, by norm_num, by norm_num, by norm_num <;> omega,
      fun j hj => by interval_cases j <;> norm_num <;> omega⟩
  · norm_num at g0 g1 g2 g3 g4 g5 g6
    exact ⟨6, by norm_num, by norm_num, by norm_num <;> omega,
      fun j hj => by interval_cases j <;> norm_num <;> omega⟩
  · norm_num at g0 g1 g2 g3 g4 g5 g6 g7
    exact ⟨7, by norm_num, by norm_num, by norm_num <;> omega,
      fun j hj => by interval_cases j <;> norm_num <;> omega⟩
  · norm_num at g0 g1 g2 g3 g4 g5 g6 g7
    exact ⟨8, by norm_num, by norm_num, by omega,
      fun j hj => by interval_cases j <;> norm_num <;> omega⟩

/-- C10 witness: the class index theorem applied at the request size
100, whose class is 7 with block size 128. -/
theorem C10_class_index_witness :
    ((1 : Nat) ≤ 100 ∧ (100 : Nat) ≤ 2048) ∧
    ∃ i : Nat, get_block_class_index 100 = (i : Int) ∧ i ≤ 8 ∧
      100 ≤ 2 ^ (i + BASE_CLASS) ∧
      ∀ j : Nat, j < i → 2 ^ (j + BASE_CLASS) < 100 :=
  ⟨⟨by decide, by decide⟩, C10_class_index 100 (by decide) (by decide)⟩


end A2
